import Mathlib

/-!
Shallow embedding of the 6004CEM parallel-programming coursework repository:
five MPI programs (src/mpi) and five OpenMP programs (src/openmp).

Embedding conventions:
* Pure loop bodies become Lean functions on lists (`List Int` for
  `std::vector<int>`, `List (List Int)` for `Matrix`).
* An OpenMP `parallel for` whose iterations write pairwise disjoint indices is
  embedded by its sequential semantics: every schedule kind, chunk size and
  thread count realises exactly this result, because each index is written by
  the unique iteration that owns it.  The thread-count / chunk-size parameters
  are kept in the signatures to mirror the source but do not influence the
  stored values, which is precisely the deterministic-result property at stake.
* Console output is embedded as structured line tokens (`OutLine`); the
  nondeterministic interleaving of worker output is modelled by quantifying
  over permutations of the canonical per-worker line list.
* MPI message passing is embedded as explicit sent-message records plus the
  tag-matching rule for a receive posted with a specific (non-wildcard) tag.
* `MPI_Abort(MPI_COMM_WORLD, 1)` terminates every process; a whole-program run
  is therefore `Except Nat (List OutLine)`: `Except.error 1` when the master
  aborts (no worker output is produced: in `mpi_parta_helloworld1.cpp` the
  abort precedes the `MPI_Barrier` that gates the per-process output, and in
  the master-slave programs an invalid world size `< 2` means the master is
  the only process), `Except.ok lines` otherwise.
* Interactive `std::cin >> n` reads become a list of `ReadResult`s
  (`fail` models an extraction failure, `val n` a parsed integer).
-/

set_option linter.unusedVariables false

namespace ParallelCW

/-- Structured console output lines: one token per worker line printed by the
programs.  `helloThread tid` is the OpenMP line `Thread tid: Hello world`;
`helloProc r name` is the MPI line `[Process r - name] Hello world`;
`msgReceived src` is the master-slave line `Message received from process src`. -/
inductive OutLine where
  | helloThread (tid : Nat)
  | helloProc (rank : Nat) (procName : String)
  | msgReceived (src : Nat)
deriving DecidableEq

/-- `using Matrix = std::vector<std::vector<int>>` from openmp_partc_matrix.cpp. -/
abbrev Matrix := List (List Int)

/-- Read `m[i][j]` (out-of-range reads return the default 0; all verified
accesses are guarded by explicit bounds hypotheses). -/
def getCell (m : Matrix) (i j : Nat) : Int := (m.getD i []).getD j 0

/-- Write `m[i][j] = v` (a write outside the allocated grid is a no-op in this
model; all verified writes are guarded by explicit bounds hypotheses). -/
def setCell (m : Matrix) (i j : Nat) (v : Int) : Matrix :=
  m.set i ((m.getD i []).set j v)

/-- Length of row `i` of `m`. -/
def rowLen (m : Matrix) (i : Nat) : Nat := (m.getD i []).length

/-! ### openmp_partb_schedule.cpp -/

/-- `initVector(vect, size, value)`: `vect.assign(size, value)`. -/
def initVector (size : Nat) (value : Int) : List Int := List.replicate size value

/-- The `parallel for` body shared by every branch of `runSchedule` and
`measureSchedule`: `for (i = 0; i < kSize; ++i) vect3[i] = vect1[i] + vect2[i]`.
Iteration `i` writes only index `i`, so the sequential order embedded here is
the unique result of every OpenMP schedule. -/
def addLoop (vect1 vect2 : List Int) : Nat → List Int → List Int
  | 0, vect3 => vect3
  | n + 1, vect3 =>
    (addLoop vect1 vect2 n vect3).set n (vect1.getD n 0 + vect2.getD n 0)

/-- `runSchedule(vect1, vect2, vect3, scheduleType, kColWidths, numThreads,
chunkSize)` from openmp_partb_schedule.cpp.  The four pragma branches
(static/dynamic crossed with default/specified chunk size) all run the same
loop body over `kSize = vect1.size()` iterations; the per-iteration
`printTableRow` inside an `omp critical` does not modify the vectors.
If `scheduleType` is neither "static" nor "dynamic" no branch runs. -/
def runSchedule (vect1 vect2 vect3 : List Int) (scheduleType : String)
    (numThreads chunkSize : Nat) : List Int :=
  if scheduleType = "static" then
    if chunkSize > 0 then addLoop vect1 vect2 vect1.length vect3
    else addLoop vect1 vect2 vect1.length vect3
  else if scheduleType = "dynamic" then
    if chunkSize > 0 then addLoop vect1 vect2 vect1.length vect3
    else addLoop vect1 vect2 vect1.length vect3
  else vect3

/-- Observable outcome of `measureSchedule`: whether the local doubles
`startTime` and `endTime` were assigned (they are written only inside the
"static" and "dynamic" branches), and the output vector. -/
structure MeasureOutcome where
  startAssigned : Bool
  endAssigned : Bool
  out : List Int
deriving DecidableEq

/-- `measureSchedule(vect1, vect2, vect3, scheduleType, isBalanced, numThreads,
chunkSize)` from openmp_partb_schedule.cpp.  Both the balanced and the
imbalanced sub-branches perform the same additions (the imbalanced one merely
adds a sleep every 100th iteration); `startTime`/`endTime` are assigned only
inside the "static" and "dynamic" branches, so for any other `scheduleType`
the function returns the difference of two uninitialized doubles and leaves
`vect3` untouched. -/
def measureSchedule (vect1 vect2 vect3 : List Int) (scheduleType : String)
    (isBalanced : Bool) (numThreads chunkSize : Nat) : MeasureOutcome :=
  if scheduleType = "static" then
    if isBalanced then ⟨true, true, addLoop vect1 vect2 vect1.length vect3⟩
    else ⟨true, true, addLoop vect1 vect2 vect1.length vect3⟩
  else if scheduleType = "dynamic" then
    if isBalanced then ⟨true, true, addLoop vect1 vect2 vect1.length vect3⟩
    else ⟨true, true, addLoop vect1 vect2 vect1.length vect3⟩
  else ⟨false, false, vect3⟩

/-- The `scheduleType` arguments `main` passes to `runSchedule`, in order
(sections 1.1, 1.2, 2.1, 2.2 of the scheduling-behaviour demo). -/
def mainRunScheduleArgs : List String := ["static", "static", "dynamic", "dynamic"]

/-- The `scheduleType` arguments `main` passes to `measureSchedule`, in order
(balanced loop body, then imbalanced loop body). -/
def mainMeasureScheduleArgs : List String := ["static", "dynamic", "static", "dynamic"]

/-! ### openmp_partc_matrix.cpp -/

/-- Partial dot product accumulated by the innermost `k`-loop after `k`
iterations: contributions of `matrix1[i][0..k-1] * matrix2[0..k-1][j]`. -/
def dotAcc (matrix1 matrix2 : Matrix) (i j : Nat) : Nat → Int
  | 0 => 0
  | k + 1 => dotAcc matrix1 matrix2 i j k + getCell matrix1 i k * getCell matrix2 k j

/-- Innermost loop of the matrix multiply:
`for (k = 0; k < size; ++k) resultMatrix[i][j] += matrix1[i][k] * matrix2[k][j]`,
run for the first `k` iterations. -/
def mulKLoop (matrix1 matrix2 : Matrix) (i j : Nat) : Nat → Matrix → Matrix
  | 0, r => r
  | k + 1, r =>
    setCell (mulKLoop matrix1 matrix2 i j k r) i j
      (getCell (mulKLoop matrix1 matrix2 i j k r) i j +
        getCell matrix1 i k * getCell matrix2 k j)

/-- Middle loop `for (j = 0; j < size; ++j)`, run for the first `j` columns of
row `i`. -/
def mulJLoop (matrix1 matrix2 : Matrix) (i size : Nat) : Nat → Matrix → Matrix
  | 0, r => r
  | j + 1, r => mulKLoop matrix1 matrix2 i j size (mulJLoop matrix1 matrix2 i size j r)

/-- Outer loop `for (i = 0; i < size; ++i)`, run for the first `i` rows. -/
def mulILoop (matrix1 matrix2 : Matrix) (size : Nat) : Nat → Matrix → Matrix
  | 0, r => r
  | i + 1, r => mulJLoop matrix1 matrix2 i size size (mulILoop matrix1 matrix2 size i r)

/-- `multiplyOuterParallel` from openmp_partc_matrix.cpp: the triple loop nest
with `#pragma omp parallel for` on the i-loop.  Each cell `(i, j)` is written
only by the iterations owning it, so every thread count realises the
sequential loop-nest semantics embedded here. -/
def multiplyOuterParallel (matrix1 matrix2 resultMatrix : Matrix)
    (size numThreads : Nat) : Matrix :=
  mulILoop matrix1 matrix2 size size resultMatrix

/-- `multiplyInnerParallel`: the same triple loop nest with the pragma on the
j-loop; the sequential loop-nest semantics is identical. -/
def multiplyInnerParallel (matrix1 matrix2 resultMatrix : Matrix)
    (size numThreads : Nat) : Matrix :=
  mulILoop matrix1 matrix2 size size resultMatrix

/-- `multiplyCollapseParallel`: the same triple loop nest with
`collapse(2)` on the i/j loops; the sequential loop-nest semantics is
identical. -/
def multiplyCollapseParallel (matrix1 matrix2 resultMatrix : Matrix)
    (size numThreads : Nat) : Matrix :=
  mulILoop matrix1 matrix2 size size resultMatrix

/-- The zero-initialized `size × size` result matrix allocated by `main`:
`Matrix result(kMatrixSize, std::vector<int>(kMatrixSize))`. -/
def zeroMatrix (size : Nat) : Matrix :=
  List.replicate size (List.replicate size 0)

/-- Inner loop of `initMatrix`: `for (j = 0; j < cols; ++j)
matrix[i][j] = dist(rng)`, run for the first `j` columns of row `i`.  The
pseudo-random generator is modelled as the stream of its successive draws;
the draw consumed at `(i, j)` is draw number `i * cols + j` (row-major
order, matching the source's row-by-row fill). -/
def initRowLoop (stream : Nat → Int) (i cols : Nat) : Nat → Matrix → Matrix
  | 0, m => m
  | j + 1, m => setCell (initRowLoop stream i cols j m) i j (stream (i * cols + j))

/-- Outer loop of `initMatrix`, run for the first `i` rows. -/
def initMatrixLoop (stream : Nat → Int) (cols : Nat) : Nat → Matrix → Matrix
  | 0, m => m
  | i + 1, m => initRowLoop stream i cols cols (initMatrixLoop stream cols i m)

/-- `initMatrix(rng, dist, matrix, rows, cols)` from openmp_partc_matrix.cpp:
assigns every entry of the `rows × cols` grid a fresh draw. -/
def initMatrix (stream : Nat → Int) (matrix : Matrix) (rows cols : Nat) : Matrix :=
  initMatrixLoop stream cols rows matrix

/-! ### MPI programs -/

/-- `kMasterTag = 100` from mpi_partc_tag.cpp. -/
def kMasterTag : Nat := 100

/-- `kSlaveWaitTag = 101` from mpi_partc_tag.cpp. -/
def kSlaveWaitTag : Nat := 101

/-- `kMaxMessageLength = 100` from mpi_partb_slaves2.cpp and mpi_partc_tag.cpp. -/
def kMaxMessageLength : Nat := 100

/-- A point-to-point message as posted by `MPI_Send`. -/
structure SentMsg where
  dest : Nat
  tag : Nat
  payload : String
deriving DecidableEq

/-- The `switch (destRank)` of mpi_partc_tag.cpp choosing the recipient name. -/
def recipientName (destRank : Nat) : String :=
  match destRank with
  | 1 => "John"
  | 2 => "Mary"
  | 3 => "Susan"
  | _ => "unnamed process"

/-- The slave ranks `1 .. worldSize - 1` (the loop bound
`for (destRank = 1; destRank < worldSize; ++destRank)`). -/
def slaveRanks (worldSize : Nat) : List Nat :=
  (List.range (worldSize - 1)).map (fun k => k + 1)

/-- The messages the master of mpi_partc_tag.cpp sends: one per slave rank,
each with tag `kMasterTag` and payload `"Hello, " + recipientName`. -/
def masterSends (worldSize : Nat) : List SentMsg :=
  (slaveRanks worldSize).map
    (fun destRank => ⟨destRank, kMasterTag, "Hello, " ++ recipientName destRank⟩)

/-- MPI matching rule for a receive posted with a specific (non-wildcard) tag:
the message is delivered only if its tag equals the expected tag. -/
def tagMatches (sentTag expectedTag : Nat) : Bool := sentTag == expectedTag

/-- Whole-program run of mpi_parta_helloworld1.cpp with `worldSize` processes:
the master aborts every process with code 1 when `worldSize ≠ 4` (before the
`MPI_Barrier`, so no per-process hello line is printed); otherwise every
process prints its hello line. -/
def helloworld1Run (worldSize : Nat) (procName : Nat → String) :
    Except Nat (List OutLine) :=
  if worldSize ≠ 4 then Except.error 1
  else Except.ok ((List.range worldSize).map (fun r => OutLine.helloProc r (procName r)))

/-- The hello lines of mpi_parta_helloworld2.cpp (and of the valid branch of
helloworld1): one `[Process r - name] Hello world` line per rank. -/
def mpiHelloLines (worldSize : Nat) (procName : Nat → String) : List OutLine :=
  (List.range worldSize).map (fun r => OutLine.helloProc r (procName r))

/-- The master's received-message lines in mpi_partb_slaves1.cpp: the loop
`for (i = 1; i < worldSize; ++i)` performs one `MPI_Recv(..., MPI_ANY_SOURCE,
...)` and prints one line per received slave rank.  Each slave sends exactly
once, so the printed sources are a permutation of `slaveRanks worldSize`;
the canonical in-rank-order list is given here. -/
def slaves1MasterLines (worldSize : Nat) : List OutLine :=
  (slaveRanks worldSize).map OutLine.msgReceived

/-- Whole-program run of mpi_partb_slaves1.cpp: abort with code 1 when
`worldSize < 2` (the master is then the only process and aborts before any
receive or worker line); otherwise the master prints one received-message line
per arrival, `arrivals` being the order in which the `MPI_ANY_SOURCE` receives
complete. -/
def slaves1Run (worldSize : Nat) (arrivals : List Nat) :
    Except Nat (List OutLine) :=
  if worldSize < 2 then Except.error 1
  else Except.ok (arrivals.map OutLine.msgReceived)

/-- Whole-program run of mpi_partb_slaves2.cpp: identical abort guard and
master receive loop (one line per arrival). -/
def slaves2Run (worldSize : Nat) (arrivals : List Nat) :
    Except Nat (List OutLine) :=
  if worldSize < 2 then Except.error 1
  else Except.ok (arrivals.map OutLine.msgReceived)

/-- Whole-program run of mpi_partc_tag.cpp up to the message exchange: abort
with code 1 when `worldSize < 2`; otherwise the master posts its sends. -/
def tagRun (worldSize : Nat) : Except Nat (List SentMsg) :=
  if worldSize < 2 then Except.error 1
  else Except.ok (masterSends worldSize)

/-! ### OpenMP hello-world programs -/

/-- `kNumThreads = 10` from openmp_parta_helloworld1.cpp. -/
def kNumThreads : Nat := 10

/-- The per-thread hello lines of the OpenMP hello-world programs: each of the
`numThreads` team members executes the mutex-guarded block exactly once and
prints `Thread tid: Hello world`.  The canonical thread-order list is given
here; the actual interleaving is a permutation of it. -/
def ompHelloLines (numThreads : Nat) : List OutLine :=
  (List.range numThreads).map OutLine.helloThread

/-- Outcome of one `std::cin >> numThreads` attempt in
openmp_parta_helloworld3.cpp: an extraction failure or a parsed integer. -/
inductive ReadResult where
  | fail
  | val (n : Int)
deriving DecidableEq

/-- The condition `std::cin.fail() || numThreads <= 0` rejecting an input. -/
def readInvalid : ReadResult → Bool
  | ReadResult.fail => true
  | ReadResult.val v => decide (v ≤ 0)

/-- The `while (hasError)` prompt loop of openmp_parta_helloworld3.cpp over a
stream of read outcomes.  Returns `some (n, e)` where `n` is the accepted
thread count and `e` the number of invalid attempts (each of which clears the
stream and prints the error message before re-prompting), or `none` when the
stream is exhausted while still re-prompting. -/
def promptLoop : List ReadResult → Option (Int × Nat)
  | [] => none
  | ReadResult.fail :: rest =>
    (promptLoop rest).map (fun p => (p.1, p.2 + 1))
  | ReadResult.val v :: rest =>
    if v ≤ 0 then (promptLoop rest).map (fun p => (p.1, p.2 + 1))
    else some (v, 0)

/-- Whole-program run of openmp_parta_helloworld3.cpp: the prompt loop followed
by the parallel region with `num_threads(numThreads)`. -/
def helloworld3Run (inputs : List ReadResult) :
    Option (Int × Nat × List OutLine) :=
  (promptLoop inputs).map (fun p => (p.1, p.2, ompHelloLines p.1.toNat))

/-! ### mpi_partb_slaves2.cpp receive-buffer facts -/

/-- MPI element datatypes used by mpi_partb_slaves2.cpp. -/
inductive MpiDatatype where
  | mpiInt
  | mpiChar
deriving DecidableEq

/-- Size in bytes of one element of each datatype (`sizeof(int) = 4`,
`sizeof(char) = 1` on the targeted platforms). -/
def datatypeSizeBytes : MpiDatatype → Nat
  | MpiDatatype.mpiInt => 4
  | MpiDatatype.mpiChar => 1

/-- The master's `MPI_Recv(recvBuffer, kMaxMessageLength, MPI_INT, ...)`
element count. -/
def slaves2RecvCount : Nat := kMaxMessageLength

/-- The master's declared receive element type (`MPI_INT`). -/
def slaves2RecvType : MpiDatatype := MpiDatatype.mpiInt

/-- The slaves' send element type (`MPI_CHAR`). -/
def slaves2SendType : MpiDatatype := MpiDatatype.mpiChar

/-- The actual size in bytes of `char recvBuffer[kMaxMessageLength]`. -/
def slaves2RecvBufferBytes : Nat := kMaxMessageLength

/-- The `switch (worldRank)` of mpi_partb_slaves2.cpp choosing the sender name. -/
def slaves2SenderName (worldRank : Nat) : String :=
  match worldRank with
  | 1 => "John"
  | 2 => "Mary"
  | 3 => "Susan"
  | _ => "unnamed process"

/-- `finalMessage = messageTemplate + senderName` sent by slave `worldRank`. -/
def slaves2Message (worldRank : Nat) : String :=
  "Hello, I am " ++ slaves2SenderName worldRank

/-- Bytes actually sent by slave `worldRank`:
`MPI_Send(finalMessage.c_str(), finalMessage.size() + 1, MPI_CHAR, ...)`,
i.e. the characters plus the terminating NUL, one byte each. -/
def slaves2MessageBytes (worldRank : Nat) : Nat :=
  (slaves2Message worldRank).length + 1

/-! ### mpi_parta_helloworld2.cpp core advisory -/

/-- The warning line of mpi_parta_helloworld2.cpp. -/
def kWarnMsg : String :=
  "- - - Warning: More processes than cores - expect performance impacts due to context switching - - -"

/-- The all-clear line of mpi_parta_helloworld2.cpp. -/
def kGoodMsg : String :=
  "+ + + Good: Each process can independently run on a separate core + + +"

/-- The advisory printed by the master:
`if (numCores > 0 && worldSize > static_cast<int>(numCores))` print the
warning, else print the all-clear line.  `numCores` is
`std::thread::hardware_concurrency()`, which returns 0 when the core count is
undeterminable. -/
def coreAdvisory (numCores worldSize : Nat) : String :=
  if numCores > 0 ∧ worldSize > numCores then kWarnMsg else kGoodMsg

/-! ### List helper lemmas -/

theorem getD_set {α : Type} (l : List α) (i j : Nat) (a d : α) :
    (l.set i a).getD j d = if i = j ∧ i < l.length then a else l.getD j d := by
  induction l generalizing i j with
  | nil => simp
  | cons x xs ih =>
    cases i with
    | zero =>
      cases j with
      | zero => simp
      | succ j => simp
    | succ i =>
      cases j with
      | zero => simp
      | succ j =>
        simpa [Nat.succ_lt_succ_iff] using ih i j

theorem getD_replicate {α : Type} (n i : Nat) (x d : α) (h : i < n) :
    (List.replicate n x).getD i d = x := by
  induction n generalizing i with
  | zero => omega
  | succ n ih =>
    cases i with
    | zero => rfl
    | succ i => simpa [List.replicate_succ] using ih i (by omega)

theorem getD_of_length_le {α : Type} (l : List α) (i : Nat) (d : α)
    (h : l.length ≤ i) : l.getD i d = d := by
  induction l generalizing i with
  | nil => simp [List.getD]
  | cons x xs ih =>
    cases i with
    | zero => simp at h
    | succ i => simpa using ih i (by simpa using h)

theorem count_map_inj_eq_one {α β : Type} [DecidableEq α] [DecidableEq β]
    (l : List α) (f : α → β) (hf : Function.Injective f) (x : α)
    (hnd : l.Nodup) (hx : x ∈ l) : (l.map f).count (f x) = 1 := by
  rw [List.count_map_of_injective l f hf x]
  exact List.count_eq_one_of_mem hnd hx

/-! ### Vector-addition loop lemmas -/

theorem addLoop_length (vect1 vect2 : List Int) (n : Nat) (vect3 : List Int) :
    (addLoop vect1 vect2 n vect3).length = vect3.length := by
  induction n with
  | zero => rfl
  | succ n ih => simp only [addLoop, List.length_set]; exact ih

theorem addLoop_getD (vect1 vect2 : List Int) (n : Nat) (vect3 : List Int)
    (i : Nat) (hn : n ≤ vect3.length) (hi : i < n) :
    (addLoop vect1 vect2 n vect3).getD i 0 = vect1.getD i 0 + vect2.getD i 0 := by
  induction n with
  | zero => omega
  | succ n ih =>
    simp only [addLoop]
    rw [getD_set]
    by_cases h : i = n
    · subst h
      rw [if_pos ⟨rfl, by rw [addLoop_length]; omega⟩]
    · rw [if_neg (by tauto)]
      exact ih (by omega) (by omega)

theorem runSchedule_static (vect1 vect2 vect3 : List Int) (t c : Nat) :
    runSchedule vect1 vect2 vect3 "static" t c = addLoop vect1 vect2 vect1.length vect3 := by
  unfold runSchedule
  rw [if_pos rfl]
  split <;> rfl

theorem runSchedule_dynamic (vect1 vect2 vect3 : List Int) (t c : Nat) :
    runSchedule vect1 vect2 vect3 "dynamic" t c = addLoop vect1 vect2 vect1.length vect3 := by
  unfold runSchedule
  rw [if_neg (by decide), if_pos rfl]
  split <;> rfl

theorem runSchedule_other (vect1 vect2 vect3 : List Int) (s : String)
    (hs : s ≠ "static") (hd : s ≠ "dynamic") (t c : Nat) :
    runSchedule vect1 vect2 vect3 s t c = vect3 := by
  unfold runSchedule
  rw [if_neg hs, if_neg hd]

theorem measureSchedule_static (vect1 vect2 vect3 : List Int) (b : Bool) (t c : Nat) :
    measureSchedule vect1 vect2 vect3 "static" b t c =
      ⟨true, true, addLoop vect1 vect2 vect1.length vect3⟩ := by
  unfold measureSchedule
  rw [if_pos rfl]
  split <;> rfl

theorem measureSchedule_dynamic (vect1 vect2 vect3 : List Int) (b : Bool) (t c : Nat) :
    measureSchedule vect1 vect2 vect3 "dynamic" b t c =
      ⟨true, true, addLoop vect1 vect2 vect1.length vect3⟩ := by
  unfold measureSchedule
  rw [if_neg (by decide), if_pos rfl]
  split <;> rfl

theorem measureSchedule_other (vect1 vect2 vect3 : List Int) (s : String)
    (hs : s ≠ "static") (hd : s ≠ "dynamic") (b : Bool) (t c : Nat) :
    measureSchedule vect1 vect2 vect3 s b t c = ⟨false, false, vect3⟩ := by
  unfold measureSchedule
  rw [if_neg hs, if_neg hd]

/-! ### Claim C2 -/

/-- Claim C2 (confirmed): for equal-length integer input vectors and a
matching output vector, every thread count and every chunk size, the vector
addition of `runSchedule` and `measureSchedule` stores
`vect3[i] = vect1[i] + vect2[i]` at every index, and the resulting output
vector is identical for the "static" and "dynamic" policies, with default or
specified chunk size and any number of threads. -/
theorem vector_addition_schedule_independent (vect1 vect2 vect3 : List Int)
    (h12 : vect1.length = vect2.length) (h13 : vect3.length = vect1.length) :
    (∀ s : String, s = "static" ∨ s = "dynamic" →
      ∀ b : Bool, ∀ t c : Nat, ∀ i, i < vect2.length →
        (runSchedule vect1 vect2 vect3 s t c).getD i 0 =
          vect1.getD i 0 + vect2.getD i 0 ∧
        (measureSchedule vect1 vect2 vect3 s b t c).out.getD i 0 =
          vect1.getD i 0 + vect2.getD i 0) ∧
    (∀ b b2 : Bool, ∀ t t2 c c2 : Nat,
      runSchedule vect1 vect2 vect3 "static" t c =
        runSchedule vect1 vect2 vect3 "dynamic" t2 c2 ∧
      (measureSchedule vect1 vect2 vect3 "static" b t c).out =
        (measureSchedule vect1 vect2 vect3 "dynamic" b2 t2 c2).out) := by
  constructor
  · intro s hs b t c i hi
    have hi1 : i < vect1.length := by omega
    have hlen : vect1.length ≤ vect3.length := by omega
    rcases hs with h | h <;> subst h
    · rw [runSchedule_static, measureSchedule_static]
      exact ⟨addLoop_getD vect1 vect2 vect1.length vect3 i hlen hi1,
        addLoop_getD vect1 vect2 vect1.length vect3 i hlen hi1⟩
    · rw [runSchedule_dynamic, measureSchedule_dynamic]
      exact ⟨addLoop_getD vect1 vect2 vect1.length vect3 i hlen hi1,
        addLoop_getD vect1 vect2 vect1.length vect3 i hlen hi1⟩
  · intro b b2 t t2 c c2
    rw [runSchedule_static, runSchedule_dynamic, measureSchedule_static,
      measureSchedule_dynamic]
    exact ⟨rfl, rfl⟩

/-- Witness for C2 at concrete vectors. -/
theorem vector_addition_schedule_independent_witness :
    (runSchedule [1, 2] [3, 4] [0, 0] "static" 4 2).getD 0 0 =
      List.getD [1, 2] 0 0 + List.getD [3, 4] 0 0 :=
  ((vector_addition_schedule_independent [1, 2] [3, 4] [0, 0] rfl rfl).1
    "static" (Or.inl rfl) true 4 2 0 (by decide)).1

/-! ### Claim C8 -/

/-- Claim C8 (confirmed): `measureSchedule` assigns `startTime` and `endTime`
only inside the "static" and "dynamic" branches, so for any other
`scheduleType` it returns the difference of two uninitialized doubles (both
unassigned in the model) and `runSchedule` leaves the output vector unchanged;
`main` only ever passes "static" or "dynamic", under which both timing
variables are assigned, so the undefined-return branch is unreachable. -/
theorem measure_timing_branches (vect1 vect2 vect3 : List Int) :
    (∀ s : String, s ≠ "static" → s ≠ "dynamic" → ∀ b : Bool, ∀ t c : Nat,
      measureSchedule vect1 vect2 vect3 s b t c = ⟨false, false, vect3⟩ ∧
      runSchedule vect1 vect2 vect3 s t c = vect3) ∧
    (∀ s : String, s = "static" ∨ s = "dynamic" → ∀ b : Bool, ∀ t c : Nat,
      (measureSchedule vect1 vect2 vect3 s b t c).startAssigned = true ∧
      (measureSchedule vect1 vect2 vect3 s b t c).endAssigned = true) ∧
    (∀ s ∈ mainRunScheduleArgs ++ mainMeasureScheduleArgs,
      s = "static" ∨ s = "dynamic") := by
  refine ⟨?_, ?_, ?_⟩
  · intro s hs hd b t c
    exact ⟨measureSchedule_other vect1 vect2 vect3 s hs hd b t c,
      runSchedule_other vect1 vect2 vect3 s hs hd t c⟩
  · intro s hs b t c
    rcases hs with h | h <;> subst h
    · rw [measureSchedule_static]; exact ⟨rfl, rfl⟩
    · rw [measureSchedule_dynamic]; exact ⟨rfl, rfl⟩
  · decide

/-- Witness for C8: a scheduleType other than "static"/"dynamic" leaves both
timing variables unassigned and the vector untouched. -/
theorem measure_timing_branches_witness :
    measureSchedule [1] [2] [0] "guided" true 4 0 =
      ⟨false, false, [0]⟩ :=
  ((measure_timing_branches [1] [2] [0]).1 "guided" (by decide) (by decide)
    true 4 0).1

/-! ### Claim C10 -/

/-- Claim C10 (confirmed): the core-count advisory of
mpi_parta_helloworld2.cpp is one-sided: the warning is printed exactly when
`hardware_concurrency()` is nonzero and `worldSize` exceeds it; when the core
count is undeterminable (0), the "Good" message is printed regardless of the
process count. -/
theorem core_advisory_one_sided :
    (∀ worldSize : Nat, coreAdvisory 0 worldSize = kGoodMsg) ∧
    (∀ numCores worldSize : Nat,
      coreAdvisory numCores worldSize = kWarnMsg ↔
        0 < numCores ∧ numCores < worldSize) := by
  constructor
  · intro worldSize
    unfold coreAdvisory
    rw [if_neg (by omega)]
  · intro numCores worldSize
    by_cases h : numCores > 0 ∧ worldSize > numCores
    · rw [coreAdvisory, if_pos h]
      exact iff_of_true rfl ⟨h.1, h.2⟩
    · rw [coreAdvisory, if_neg h]
      exact iff_of_false (by decide) (fun hc => h ⟨hc.1, hc.2⟩)

/-! ### Claim C9 -/

/-- Claim C9 (confirmed): the master's `MPI_Recv` in mpi_partb_slaves2.cpp
declares a capacity of 100 `MPI_INT` elements (400 bytes) for a 100-byte
`char` buffer, so the declared receive capacity in bytes exceeds the buffer
size, and the receive element type differs from the slaves' `MPI_CHAR` send
type; yet every message actually sent ("Hello, I am " plus a name plus the
terminating NUL) fits within 100 bytes. -/
theorem slaves2_recv_buffer_facts :
    slaves2RecvCount * datatypeSizeBytes slaves2RecvType = 400 ∧
    slaves2RecvBufferBytes = 100 ∧
    slaves2RecvCount * datatypeSizeBytes slaves2RecvType > slaves2RecvBufferBytes ∧
    slaves2RecvType ≠ slaves2SendType ∧
    ∀ worldRank : Nat, slaves2MessageBytes worldRank ≤ slaves2RecvBufferBytes := by
  refine ⟨by decide, by decide, by decide, by decide, ?_⟩
  intro worldRank
  match worldRank with
  | 0 => decide
  | 1 => decide
  | 2 => decide
  | 3 => decide
  | (n + 4) =>
    show ("Hello, I am " ++ "unnamed process").length + 1 ≤ 100
    decide

/-! ### Claim C1 -/

/-- Claim C1 counterexample: at worldSize = 2 the master's one message (tag
`kMasterTag = 100`, sent to rank 1) does not match the slave's blocking
receive, which waits for tag `kSlaveWaitTag = 101`; the claim that every sent
message is matched and received is false. -/
theorem tag_program_claim_false_at_two :
    ¬ (∀ m ∈ masterSends 2, tagMatches m.tag kSlaveWaitTag = true) := by
  decide

/-- Claim C1 (corrected): in the tag-based master-slave program every message
the master sends carries tag `kMasterTag = 100`, while each slave's blocking
receive waits for tag `kSlaveWaitTag = 101`; no sent message matches any
slave's expected tag, so for every valid world size (at least 2) there is at
least one sent message and none of them is ever delivered — the slaves'
receives never complete and those processes never reach `MPI_Finalize`.  The
non-tag master-slave exchange of mpi_partb_slaves1.cpp, by contrast, completes
and produces the master's received-message lines. -/
theorem tag_program_never_matches (worldSize : Nat) (h : 2 ≤ worldSize) :
    masterSends worldSize ≠ [] ∧
    (∀ m ∈ masterSends worldSize,
      m.tag = kMasterTag ∧ tagMatches m.tag kSlaveWaitTag = false) ∧
    slaves1Run worldSize (slaveRanks worldSize) =
      Except.ok (slaves1MasterLines worldSize) := by
  refine ⟨?_, ?_, ?_⟩
  · have hlen : (masterSends worldSize).length = worldSize - 1 := by
      simp [masterSends, slaveRanks]
    intro hnil
    rw [hnil] at hlen
    simp at hlen
    omega
  · intro m hm
    simp only [masterSends, slaveRanks, List.mem_map] at hm
    obtain ⟨d, hd, rfl⟩ := hm
    exact ⟨rfl, rfl⟩
  · rw [slaves1Run, if_neg (by omega)]
    rfl

/-- Witness for C1's corrected statement at worldSize = 2. -/
theorem tag_program_never_matches_witness :
    masterSends 2 ≠ [] ∧
    (∀ m ∈ masterSends 2,
      m.tag = kMasterTag ∧ tagMatches m.tag kSlaveWaitTag = false) ∧
    slaves1Run 2 (slaveRanks 2) = Except.ok (slaves1MasterLines 2) :=
  tag_program_never_matches 2 (by omega)

/-! ### Claim C4 -/

/-- Claim C4 (confirmed): for every invalid configured process count (any
count other than 4 for mpi_parta_helloworld1.cpp; any count below 2 for the
master-slave programs) the program aborts all cooperating processes with
`MPI_Abort` error code 1 before doing any distributed work or printing any
worker output (the error run carries no output lines); for every valid count
no abort occurs and the run completes with its worker output. -/
theorem abort_on_invalid_process_count (procName : Nat → String)
    (arrivals : List Nat) :
    (∀ worldSize : Nat, worldSize ≠ 4 →
      helloworld1Run worldSize procName = Except.error 1) ∧
    helloworld1Run 4 procName = Except.ok (mpiHelloLines 4 procName) ∧
    (∀ worldSize : Nat, worldSize < 2 →
      slaves1Run worldSize arrivals = Except.error 1 ∧
      slaves2Run worldSize arrivals = Except.error 1 ∧
      tagRun worldSize = Except.error 1) ∧
    (∀ worldSize : Nat, 2 ≤ worldSize →
      slaves1Run worldSize arrivals = Except.ok (arrivals.map OutLine.msgReceived) ∧
      slaves2Run worldSize arrivals = Except.ok (arrivals.map OutLine.msgReceived) ∧
      tagRun worldSize = Except.ok (masterSends worldSize)) := by
  refine ⟨?_, ?_, ?_, ?_⟩
  · intro worldSize hw
    rw [helloworld1Run, if_pos hw]
  · rw [helloworld1Run, if_neg (by omega)]
    rfl
  · intro worldSize hw
    exact ⟨by rw [slaves1Run, if_pos hw], by rw [slaves2Run, if_pos hw],
      by rw [tagRun, if_pos hw]⟩
  · intro worldSize hw
    exact ⟨by rw [slaves1Run, if_neg (by omega)],
      by rw [slaves2Run, if_neg (by omega)],
      by rw [tagRun, if_neg (by omega)]⟩

/-- Witness for C4: worldSize 5 aborts the 4-process hello world with code 1,
and worldSize 1 aborts the master-slave program with code 1. -/
theorem abort_on_invalid_process_count_witness :
    helloworld1Run 5 (fun r => "node") = Except.error 1 ∧
    slaves1Run 1 [] = Except.error 1 :=
  ⟨(abort_on_invalid_process_count (fun r => "node") []).1 5 (by omega),
    ((abort_on_invalid_process_count (fun r => "node") []).2.2.1 1 (by omega)).1⟩

/-! ### Matrix cell lemmas -/

theorem length_setCell (m : Matrix) (i j : Nat) (v : Int) :
    (setCell m i j v).length = m.length :=
  List.length_set m i ((m.getD i []).set j v)

theorem rowLen_setCell (m : Matrix) (i j : Nat) (v : Int) (i' : Nat) :
    rowLen (setCell m i j v) i' = rowLen m i' := by
  unfold rowLen setCell
  rw [getD_set]
  split
  · rename_i h
    rw [List.length_set, ← h.1]
  · rfl

theorem getCell_setCell (m : Matrix) (i j : Nat) (v : Int) (i' j' : Nat) :
    getCell (setCell m i j v) i' j' =
      if i = i' ∧ i < m.length ∧ j = j' ∧ j < rowLen m i then v
      else getCell m i' j' := by
  unfold getCell setCell rowLen
  rw [getD_set]
  by_cases h1 : i = i' ∧ i < m.length
  · rw [if_pos h1]
    obtain ⟨hi, hlen⟩ := h1
    subst hi
    rw [getD_set]
    by_cases h2 : j = j' ∧ j < (m.getD i []).length
    · rw [if_pos h2, if_pos ⟨rfl, hlen, h2⟩]
    · rw [if_neg h2, if_neg (by tauto)]
  · rw [if_neg h1, if_neg (by tauto)]

/-! ### Matrix multiplication loop lemmas -/

theorem mulKLoop_length (matrix1 matrix2 : Matrix) (i j k : Nat) (r : Matrix) :
    (mulKLoop matrix1 matrix2 i j k r).length = r.length := by
  induction k with
  | zero => rfl
  | succ k ih => simp only [mulKLoop, length_setCell]; exact ih

theorem mulKLoop_rowLen (matrix1 matrix2 : Matrix) (i j k : Nat) (r : Matrix)
    (i' : Nat) : rowLen (mulKLoop matrix1 matrix2 i j k r) i' = rowLen r i' := by
  induction k with
  | zero => rfl
  | succ k ih => simp only [mulKLoop, rowLen_setCell]; exact ih

theorem getCell_mulKLoop_ne (matrix1 matrix2 : Matrix) (i j k : Nat)
    (r : Matrix) (i' j' : Nat) (h : ¬(i = i' ∧ j = j')) :
    getCell (mulKLoop matrix1 matrix2 i j k r) i' j' = getCell r i' j' := by
  induction k with
  | zero => rfl
  | succ k ih =>
    simp only [mulKLoop]
    rw [getCell_setCell, if_neg (by tauto)]
    exact ih

theorem getCell_mulKLoop_self (matrix1 matrix2 : Matrix) (i j : Nat)
    (r : Matrix) (hi : i < r.length) (hj : j < rowLen r i) (k : Nat) :
    getCell (mulKLoop matrix1 matrix2 i j k r) i j =
      getCell r i j + dotAcc matrix1 matrix2 i j k := by
  induction k with
  | zero => simp [mulKLoop, dotAcc]
  | succ k ih =>
    simp only [mulKLoop, dotAcc]
    rw [getCell_setCell,
      if_pos ⟨rfl, by rw [mulKLoop_length]; exact hi, rfl,
        by rw [mulKLoop_rowLen]; exact hj⟩,
      ih, Int.add_assoc]

theorem mulJLoop_length (matrix1 matrix2 : Matrix) (i size jc : Nat) (r : Matrix) :
    (mulJLoop matrix1 matrix2 i size jc r).length = r.length := by
  induction jc with
  | zero => rfl
  | succ jc ih => simp only [mulJLoop, mulKLoop_length]; exact ih

theorem mulJLoop_rowLen (matrix1 matrix2 : Matrix) (i size jc : Nat) (r : Matrix)
    (i' : Nat) : rowLen (mulJLoop matrix1 matrix2 i size jc r) i' = rowLen r i' := by
  induction jc with
  | zero => rfl
  | succ jc ih => simp only [mulJLoop, mulKLoop_rowLen]; exact ih

theorem getCell_mulJLoop_ne_row (matrix1 matrix2 : Matrix) (i size jc : Nat)
    (r : Matrix) (i' j' : Nat) (h : i ≠ i') :
    getCell (mulJLoop matrix1 matrix2 i size jc r) i' j' = getCell r i' j' := by
  induction jc with
  | zero => rfl
  | succ jc ih =>
    simp only [mulJLoop]
    rw [getCell_mulKLoop_ne _ _ _ _ _ _ _ _ (by tauto)]
    exact ih

theorem getCell_mulJLoop_ge (matrix1 matrix2 : Matrix) (i size jc : Nat)
    (r : Matrix) (j' : Nat) (h : jc ≤ j') :
    getCell (mulJLoop matrix1 matrix2 i size jc r) i j' = getCell r i j' := by
  induction jc with
  | zero => rfl
  | succ jc ih =>
    simp only [mulJLoop]
    rw [getCell_mulKLoop_ne _ _ _ _ _ _ _ _ (by omega)]
    exact ih (by omega)

theorem getCell_mulJLoop_lt (matrix1 matrix2 : Matrix) (i size jc : Nat)
    (r : Matrix) (j' : Nat) (hi : i < r.length) (hjb : j' < rowLen r i)
    (hlt : j' < jc) :
    getCell (mulJLoop matrix1 matrix2 i size jc r) i j' =
      getCell r i j' + dotAcc matrix1 matrix2 i j' size := by
  induction jc with
  | zero => omega
  | succ jc ih =>
    simp only [mulJLoop]
    by_cases h : j' = jc
    · subst h
      rw [getCell_mulKLoop_self matrix1 matrix2 i j'
          (mulJLoop matrix1 matrix2 i size j' r)
          (by rw [mulJLoop_length]; exact hi)
          (by rw [mulJLoop_rowLen]; exact hjb) size,
        getCell_mulJLoop_ge _ _ _ _ _ _ _ (Nat.le_refl _)]
    · rw [getCell_mulKLoop_ne _ _ _ _ _ _ _ _ (by tauto)]
      exact ih (by omega)

theorem mulILoop_length (matrix1 matrix2 : Matrix) (size ic : Nat) (r : Matrix) :
    (mulILoop matrix1 matrix2 size ic r).length = r.length := by
  induction ic with
  | zero => rfl
  | succ ic ih => simp only [mulILoop, mulJLoop_length]; exact ih

theorem mulILoop_rowLen (matrix1 matrix2 : Matrix) (size ic : Nat) (r : Matrix)
    (i' : Nat) : rowLen (mulILoop matrix1 matrix2 size ic r) i' = rowLen r i' := by
  induction ic with
  | zero => rfl
  | succ ic ih => simp only [mulILoop, mulJLoop_rowLen]; exact ih

theorem getCell_mulILoop_ge (matrix1 matrix2 : Matrix) (size ic : Nat)
    (r : Matrix) (i' j' : Nat) (h : ic ≤ i') :
    getCell (mulILoop matrix1 matrix2 size ic r) i' j' = getCell r i' j' := by
  induction ic with
  | zero => rfl
  | succ ic ih =>
    simp only [mulILoop]
    rw [getCell_mulJLoop_ne_row _ _ _ _ _ _ _ _ (by omega)]
    exact ih (by omega)

theorem getCell_mulILoop_lt (matrix1 matrix2 : Matrix) (size ic : Nat)
    (r : Matrix) (i' j' : Nat) (hi' : i' < r.length) (hjb : j' < rowLen r i')
    (hj' : j' < size) (hlt : i' < ic) :
    getCell (mulILoop matrix1 matrix2 size ic r) i' j' =
      getCell r i' j' + dotAcc matrix1 matrix2 i' j' size := by
  induction ic with
  | zero => omega
  | succ ic ih =>
    simp only [mulILoop]
    by_cases h : i' = ic
    · subst h
      rw [getCell_mulJLoop_lt matrix1 matrix2 i' size size
          (mulILoop matrix1 matrix2 size i' r) j'
          (by rw [mulILoop_length]; exact hi')
          (by rw [mulILoop_rowLen]; exact hjb) hj',
        getCell_mulILoop_ge _ _ _ _ _ _ _ (Nat.le_refl _)]
    · rw [getCell_mulJLoop_ne_row _ _ _ _ _ _ _ _ (by omega)]
      exact ih (by omega)

theorem dotAcc_eq_sum (matrix1 matrix2 : Matrix) (i j n : Nat) :
    dotAcc matrix1 matrix2 i j n =
      ∑ k ∈ Finset.range n, getCell matrix1 i k * getCell matrix2 k j := by
  induction n with
  | zero => simp [dotAcc]
  | succ n ih =>
    rw [Finset.sum_range_succ, ← ih]
    rfl

theorem length_zeroMatrix (size : Nat) : (zeroMatrix size).length = size :=
  List.length_replicate size (List.replicate size 0)

theorem rowLen_zeroMatrix (size i : Nat) (h : i < size) :
    rowLen (zeroMatrix size) i = size := by
  unfold rowLen zeroMatrix
  rw [getD_replicate _ _ _ _ h, List.length_replicate]

theorem getCell_zeroMatrix (size i j : Nat) :
    getCell (zeroMatrix size) i j = 0 := by
  unfold getCell zeroMatrix
  by_cases hi : i < size
  · rw [getD_replicate _ _ _ _ hi]
    by_cases hj : j < size
    · rw [getD_replicate _ _ _ _ hj]
    · rw [getD_of_length_le _ _ _ (by rw [List.length_replicate]; omega)]
  · rw [getD_of_length_le (List.replicate size (List.replicate size 0)) i []
        (by rw [List.length_replicate]; omega)]
    rfl

/-! ### Claim C3 -/

/-- Claim C3 (confirmed): for all square integer matrices of the same
dimension, any thread count, and the zero-initialized result matrix,
`multiplyOuterParallel`, `multiplyInnerParallel` and
`multiplyCollapseParallel` each store the standard mathematical matrix
product of `matrix1` and `matrix2` at every cell of `resultMatrix`, so all
three loop-parallelization strategies produce identical results independent
of thread count. -/
theorem matrix_multiply_strategies_agree (matrix1 matrix2 : Matrix)
    (size : Nat) (i j : Nat) (hi : i < size) (hj : j < size) :
    (∀ numThreads : Nat,
      getCell (multiplyOuterParallel matrix1 matrix2 (zeroMatrix size) size numThreads) i j =
        ∑ k ∈ Finset.range size, getCell matrix1 i k * getCell matrix2 k j ∧
      getCell (multiplyInnerParallel matrix1 matrix2 (zeroMatrix size) size numThreads) i j =
        ∑ k ∈ Finset.range size, getCell matrix1 i k * getCell matrix2 k j ∧
      getCell (multiplyCollapseParallel matrix1 matrix2 (zeroMatrix size) size numThreads) i j =
        ∑ k ∈ Finset.range size, getCell matrix1 i k * getCell matrix2 k j) ∧
    (∀ t1 t2 : Nat,
      multiplyOuterParallel matrix1 matrix2 (zeroMatrix size) size t1 =
        multiplyInnerParallel matrix1 matrix2 (zeroMatrix size) size t2 ∧
      multiplyInnerParallel matrix1 matrix2 (zeroMatrix size) size t1 =
        multiplyCollapseParallel matrix1 matrix2 (zeroMatrix size) size t2) := by
  have hcell : ∀ numThreads : Nat,
      getCell (mulILoop matrix1 matrix2 size size (zeroMatrix size)) i j =
        ∑ k ∈ Finset.range size, getCell matrix1 i k * getCell matrix2 k j := by
    intro numThreads
    rw [getCell_mulILoop_lt matrix1 matrix2 size size (zeroMatrix size) i j
        (by rw [length_zeroMatrix]; exact hi)
        (by rw [rowLen_zeroMatrix size i hi]; exact hj) hj hi,
      getCell_zeroMatrix, dotAcc_eq_sum, Int.zero_add]
  exact ⟨fun t => ⟨hcell t, hcell t, hcell t⟩, fun t1 t2 => ⟨rfl, rfl⟩⟩

/-- Witness for C3 at concrete 2 × 2 matrices. -/
theorem matrix_multiply_strategies_agree_witness :
    getCell (multiplyOuterParallel [[1, 2], [3, 4]] [[5, 6], [7, 8]]
      (zeroMatrix 2) 2 4) 0 0 =
      ∑ k ∈ Finset.range 2,
        getCell [[1, 2], [3, 4]] 0 k * getCell [[5, 6], [7, 8]] k 0 :=
  ((matrix_multiply_strategies_agree [[1, 2], [3, 4]] [[5, 6], [7, 8]] 2 0 0
    (by omega) (by omega)).1 4).1

/-! ### Matrix initialization loop lemmas -/

theorem initRowLoop_length (stream : Nat → Int) (i cols jc : Nat) (m : Matrix) :
    (initRowLoop stream i cols jc m).length = m.length := by
  induction jc with
  | zero => rfl
  | succ jc ih => simp only [initRowLoop, length_setCell]; exact ih

theorem initRowLoop_rowLen (stream : Nat → Int) (i cols jc : Nat) (m : Matrix)
    (i' : Nat) : rowLen (initRowLoop stream i cols jc m) i' = rowLen m i' := by
  induction jc with
  | zero => rfl
  | succ jc ih => simp only [initRowLoop, rowLen_setCell]; exact ih

theorem getCell_initRowLoop_ne_row (stream : Nat → Int) (i cols jc : Nat)
    (m : Matrix) (i' j' : Nat) (h : i ≠ i') :
    getCell (initRowLoop stream i cols jc m) i' j' = getCell m i' j' := by
  induction jc with
  | zero => rfl
  | succ jc ih =>
    simp only [initRowLoop]
    rw [getCell_setCell, if_neg (by tauto)]
    exact ih

theorem getCell_initRowLoop_lt (stream : Nat → Int) (i cols jc : Nat)
    (m : Matrix) (j' : Nat) (hi : i < m.length) (hjb : j' < rowLen m i)
    (hlt : j' < jc) :
    getCell (initRowLoop stream i cols jc m) i j' = stream (i * cols + j') := by
  induction jc with
  | zero => omega
  | succ jc ih =>
    simp only [initRowLoop]
    rw [getCell_setCell]
    by_cases h : j' = jc
    · subst h
      rw [if_pos ⟨rfl, by rw [initRowLoop_length]; exact hi, rfl,
        by rw [initRowLoop_rowLen]; exact hjb⟩]
    · rw [if_neg (by tauto)]
      exact ih (by omega)

theorem initMatrixLoop_length (stream : Nat → Int) (cols ic : Nat) (m : Matrix) :
    (initMatrixLoop stream cols ic m).length = m.length := by
  induction ic with
  | zero => rfl
  | succ ic ih => simp only [initMatrixLoop, initRowLoop_length]; exact ih

theorem initMatrixLoop_rowLen (stream : Nat → Int) (cols ic : Nat) (m : Matrix)
    (i' : Nat) : rowLen (initMatrixLoop stream cols ic m) i' = rowLen m i' := by
  induction ic with
  | zero => rfl
  | succ ic ih => simp only [initMatrixLoop, initRowLoop_rowLen]; exact ih

theorem getCell_initMatrixLoop_lt (stream : Nat → Int) (cols ic : Nat)
    (m : Matrix) (i' j' : Nat) (hi' : i' < m.length) (hjb : j' < rowLen m i')
    (hj' : j' < cols) (hlt : i' < ic) :
    getCell (initMatrixLoop stream cols ic m) i' j' = stream (i' * cols + j') := by
  induction ic with
  | zero => omega
  | succ ic ih =>
    simp only [initMatrixLoop]
    by_cases h : i' = ic
    · subst h
      exact getCell_initRowLoop_lt stream i' cols cols
        (initMatrixLoop stream cols i' m) j'
        (by rw [initMatrixLoop_length]; exact hi')
        (by rw [initMatrixLoop_rowLen]; exact hjb) hj'
    · rw [getCell_initRowLoop_ne_row _ _ _ _ _ _ _ (by omega)]
      exact ih (by omega)

/-! ### Claim C7 -/

/-- Claim C7 (confirmed): the "array length equals configured size" invariant
is maintained by every operation: after `initVector size value` the vector has
exactly `size` elements, each equal to `value`; `initMatrix` assigns every
entry of its rows-by-cols grid (and preserves the matrix dimensions); and no
parallel loop (`runSchedule`, `measureSchedule`, or the three matrix
multiplies) ever changes the length of a vector or the dimensions of a
matrix. -/
theorem shape_invariants_maintained :
    (∀ size : Nat, ∀ value : Int,
      (initVector size value).length = size ∧
      ∀ i, i < size → (initVector size value).getD i 0 = value) ∧
    (∀ stream : Nat → Int, ∀ m : Matrix, ∀ rows cols : Nat,
      (initMatrix stream m rows cols).length = m.length ∧
      (∀ i, rowLen (initMatrix stream m rows cols) i = rowLen m i) ∧
      (rows ≤ m.length → (∀ i, i < rows → cols ≤ rowLen m i) →
        ∀ i, i < rows → ∀ j, j < cols →
          getCell (initMatrix stream m rows cols) i j = stream (i * cols + j))) ∧
    (∀ vect1 vect2 vect3 : List Int, ∀ s : String, ∀ b : Bool, ∀ t c : Nat,
      (runSchedule vect1 vect2 vect3 s t c).length = vect3.length ∧
      (measureSchedule vect1 vect2 vect3 s b t c).out.length = vect3.length) ∧
    (∀ matrix1 matrix2 r : Matrix, ∀ size t : Nat,
      (multiplyOuterParallel matrix1 matrix2 r size t).length = r.length ∧
      (multiplyInnerParallel matrix1 matrix2 r size t).length = r.length ∧
      (multiplyCollapseParallel matrix1 matrix2 r size t).length = r.length ∧
      ∀ i, rowLen (multiplyOuterParallel matrix1 matrix2 r size t) i = rowLen r i ∧
        rowLen (multiplyInnerParallel matrix1 matrix2 r size t) i = rowLen r i ∧
        rowLen (multiplyCollapseParallel matrix1 matrix2 r size t) i = rowLen r i) := by
  refine ⟨?_, ?_, ?_, ?_⟩
  · intro size value
    exact ⟨List.length_replicate size value,
      fun i hi => getD_replicate size i value 0 hi⟩
  · intro stream m rows cols
    refine ⟨initMatrixLoop_length stream cols rows m,
      fun i => initMatrixLoop_rowLen stream cols rows m i, ?_⟩
    intro hrows hcols i hi j hj
    exact getCell_initMatrixLoop_lt stream cols rows m i j (by omega)
      (by have := hcols i hi; omega) hj hi
  · intro vect1 vect2 vect3 s b t c
    by_cases hs : s = "static"
    · subst hs
      rw [runSchedule_static, measureSchedule_static]
      exact ⟨addLoop_length vect1 vect2 vect1.length vect3,
        addLoop_length vect1 vect2 vect1.length vect3⟩
    · by_cases hd : s = "dynamic"
      · subst hd
        rw [runSchedule_dynamic, measureSchedule_dynamic]
        exact ⟨addLoop_length vect1 vect2 vect1.length vect3,
          addLoop_length vect1 vect2 vect1.length vect3⟩
      · rw [runSchedule_other vect1 vect2 vect3 s hs hd,
          measureSchedule_other vect1 vect2 vect3 s hs hd]
        exact ⟨rfl, rfl⟩
  · intro matrix1 matrix2 r size t
    exact ⟨mulILoop_length matrix1 matrix2 size size r,
      mulILoop_length matrix1 matrix2 size size r,
      mulILoop_length matrix1 matrix2 size size r,
      fun i => ⟨mulILoop_rowLen matrix1 matrix2 size size r i,
        mulILoop_rowLen matrix1 matrix2 size size r i,
        mulILoop_rowLen matrix1 matrix2 size size r i⟩⟩

/-- Witness for C7 at a concrete stream, matrix and vectors. -/
theorem shape_invariants_maintained_witness :
    getCell (initMatrix (fun k => (k : Int)) (zeroMatrix 2) 2 2) 1 1 =
      ((1 * 2 + 1 : Nat) : Int) :=
  (shape_invariants_maintained.2.1 (fun k => (k : Int)) (zeroMatrix 2) 2 2).2.2
    (by decide) (fun i hi => by interval_cases i <;> decide) 1 (by omega) 1 (by omega)

/-! ### Claim C5 -/

theorem helloThread_injective : Function.Injective OutLine.helloThread := by
  intro a b h
  cases h
  rfl

theorem msgReceived_injective : Function.Injective OutLine.msgReceived := by
  intro a b h
  cases h
  rfl

theorem slaveRanks_nodup (worldSize : Nat) : (slaveRanks worldSize).Nodup :=
  (List.nodup_range (worldSize - 1)).map (fun a b h => by omega)

theorem mem_slaveRanks (worldSize s : Nat) :
    s ∈ slaveRanks worldSize ↔ 1 ≤ s ∧ s < worldSize := by
  simp only [slaveRanks, List.mem_map, List.mem_range]
  constructor
  · rintro ⟨k, hk, rfl⟩
    omega
  · rintro ⟨h1, h2⟩
    exact ⟨s - 1, by omega, by omega⟩

theorem length_slaveRanks (worldSize : Nat) :
    (slaveRanks worldSize).length = worldSize - 1 := by
  simp [slaveRanks]

/-- Claim C5 (confirmed): for every valid thread/process count the output
contains exactly one line per worker, whatever the concurrent interleaving
(any permutation of the canonical line list): each of the `n` OpenMP threads
prints exactly one `Thread t: Hello world` line with its own number
`t ∈ 0..n-1`; each MPI process prints exactly one `[Process r - name] Hello
world` line; and the master of the master-slave program prints exactly one
received-message line per slave, i.e. exactly `worldSize - 1` such lines. -/
theorem one_output_line_per_worker :
    (∀ n : Nat, ∀ lines : List OutLine, lines.Perm (ompHelloLines n) →
      lines.length = n ∧
      ∀ t, t < n → lines.count (OutLine.helloThread t) = 1) ∧
    (∀ worldSize : Nat, ∀ procName : Nat → String,
      (mpiHelloLines worldSize procName).length = worldSize ∧
      ∀ r, r < worldSize →
        (mpiHelloLines worldSize procName).count
          (OutLine.helloProc r (procName r)) = 1) ∧
    (∀ worldSize : Nat, 2 ≤ worldSize → ∀ arrivals : List Nat,
      arrivals.Perm (slaveRanks worldSize) →
      (arrivals.map OutLine.msgReceived).length = worldSize - 1 ∧
      ∀ s, 1 ≤ s → s < worldSize →
        (arrivals.map OutLine.msgReceived).count (OutLine.msgReceived s) = 1) := by
  refine ⟨?_, ?_, ?_⟩
  · intro n lines hperm
    constructor
    · rw [hperm.length_eq]
      simp [ompHelloLines]
    · intro t ht
      rw [hperm.count_eq]
      exact count_map_inj_eq_one (List.range n) OutLine.helloThread
        helloThread_injective t (List.nodup_range n) (List.mem_range.mpr ht)
  · intro worldSize procName
    constructor
    · simp [mpiHelloLines]
    · intro r hr
      exact count_map_inj_eq_one (List.range worldSize)
        (fun x => OutLine.helloProc x (procName x))
        (fun a b h => by cases h; rfl) r
        (List.nodup_range worldSize) (List.mem_range.mpr hr)
  · intro worldSize hws arrivals hperm
    constructor
    · rw [List.length_map, hperm.length_eq, length_slaveRanks]
    · intro s h1 h2
      rw [List.Perm.count_eq (hperm.map OutLine.msgReceived)]
      exact count_map_inj_eq_one (slaveRanks worldSize) OutLine.msgReceived
        msgReceived_injective s (slaveRanks_nodup worldSize)
        ((mem_slaveRanks worldSize s).mpr ⟨h1, h2⟩)

/-- Witness for C5 at concrete counts and a concrete interleaving. -/
theorem one_output_line_per_worker_witness :
    ([OutLine.helloThread 2, OutLine.helloThread 0, OutLine.helloThread 1].count
      (OutLine.helloThread 1) = 1) ∧
    ([OutLine.msgReceived 2, OutLine.msgReceived 1].length = 3 - 1) :=
  ⟨((one_output_line_per_worker.1 3
      [OutLine.helloThread 2, OutLine.helloThread 0, OutLine.helloThread 1]
      (by decide)).2 1 (by omega)),
    ((one_output_line_per_worker.2.2 3 (by omega) [2, 1] (by decide)).1)⟩

/-! ### Claim C6 -/

/-- Claim C6 (confirmed): the interactive thread-count prompt re-prompts on
every invalid numeric input (extraction failure or value at most zero),
incrementing the count of printed error messages; it exits only when a
positive integer is read (never otherwise), the accepted value is positive,
and the parallel region then runs with exactly that many threads (one hello
line per thread 0..n-1). -/
theorem prompt_loop_reprompts_until_positive :
    (∀ inputs : List ReadResult, ∀ v : Int, ∀ e : Nat,
      promptLoop inputs = some (v, e) → 0 < v) ∧
    (∀ r : ReadResult, ∀ rest : List ReadResult, readInvalid r = true →
      promptLoop (r :: rest) = (promptLoop rest).map (fun p => (p.1, p.2 + 1))) ∧
    (∀ v : Int, ∀ rest : List ReadResult, 0 < v →
      promptLoop (ReadResult.val v :: rest) = some (v, 0)) ∧
    (∀ inputs : List ReadResult, ∀ v : Int, ∀ e : Nat, ∀ lines : List OutLine,
      helloworld3Run inputs = some (v, e, lines) →
      0 < v ∧ lines = ompHelloLines v.toNat ∧ lines.length = v.toNat) := by
  have hpos : ∀ inputs : List ReadResult, ∀ v : Int, ∀ e : Nat,
      promptLoop inputs = some (v, e) → 0 < v := by
    intro inputs
    induction inputs with
    | nil => intro v e h; simp [promptLoop] at h
    | cons r rest ih =>
      intro v e h
      cases r with
      | fail =>
        simp only [promptLoop, Option.map_eq_some'] at h
        obtain ⟨p, hp, heq⟩ := h
        have hv : p.1 = v := congrArg Prod.fst heq
        exact hv ▸ ih p.1 p.2 (by rw [hp])
      | val x =>
        simp only [promptLoop] at h
        by_cases hx : x ≤ 0
        · rw [if_pos hx] at h
          simp only [Option.map_eq_some'] at h
          obtain ⟨p, hp, heq⟩ := h
          have hv : p.1 = v := congrArg Prod.fst heq
          exact hv ▸ ih p.1 p.2 (by rw [hp])
        · rw [if_neg hx] at h
          have hv : x = v := congrArg Prod.fst (Option.some.inj h)
          omega
  refine ⟨hpos, ?_, ?_, ?_⟩
  · intro r rest hr
    cases r with
    | fail => rfl
    | val x =>
      have hx : x ≤ 0 := by simpa [readInvalid] using hr
      simp only [promptLoop, if_pos hx]
  · intro v rest hv
    simp only [promptLoop, if_neg (by omega : ¬ v ≤ 0)]
  · intro inputs v e lines h
    simp only [helloworld3Run, Option.map_eq_some'] at h
    obtain ⟨p, hp, heq⟩ := h
    obtain ⟨hv, he, hlines⟩ : p.1 = v ∧ p.2 = e ∧ ompHelloLines p.1.toNat = lines := by
      have h1 := congrArg Prod.fst heq
      have h2 := congrArg (fun q => q.2.1) heq
      have h3 := congrArg (fun q => q.2.2) heq
      exact ⟨h1, h2, h3⟩
    subst hv
    refine ⟨hpos inputs p.1 e (by rw [hp, ← he]), hlines.symm, ?_⟩
    rw [← hlines]
    simp [ompHelloLines]

/-- Witness for C6: two invalid attempts (a parse failure, then a
non-positive integer) are re-prompted, and the first positive integer 3 is
accepted with 2 error messages printed. -/
theorem prompt_loop_reprompts_until_positive_witness :
    promptLoop [ReadResult.fail, ReadResult.val (-2), ReadResult.val 3] =
      some (3, 2) ∧ (0 : Int) < 3 :=
  ⟨by decide,
    prompt_loop_reprompts_until_positive.1
      [ReadResult.fail, ReadResult.val (-2), ReadResult.val 3] 3 2 (by decide)⟩

end ParallelCW
